import Mathlib

/-!
Verification of the oxlint JS bridge layer
(`apps/oxlint/src-js/js_config.ts` and `apps/oxlint/src-js/cli.ts`).

The TypeScript sources are shallowly embedded: JavaScript values become the
inductive `JsValue`, dynamic `import` becomes a function supplied by an
environment, promise settlement becomes the inductive `Settled`, and the
discriminated JSON result union of `loadJsConfigs` becomes
`LoadJsConfigsResult` together with an executable JSON serializer.
-/

namespace OxlintBridge

mutual

/-- JavaScript runtime values, as far as the bridge inspects them:
`typeof`-distinguishable classes plus structured objects and arrays.
`num` carries an integer stand-in for a JS number. -/
inductive JsValue where
  | undef : JsValue
  | null : JsValue
  | bool (b : Bool) : JsValue
  | num (n : Int) : JsValue
  | str (s : String) : JsValue
  | arr (elems : JsValueList) : JsValue
  | obj (fields : JsFieldList) : JsValue
  | func (name : String) : JsValue

inductive JsValueList where
  | nil : JsValueList
  | cons (head : JsValue) (tail : JsValueList) : JsValueList

inductive JsFieldList where
  | nil : JsFieldList
  | cons (key : String) (val : JsValue) (tail : JsFieldList) : JsFieldList

end

/-- The JavaScript `typeof` operator on the modelled values. -/
def jsTypeof : JsValue → String
  | .undef => "undefined"
  | .null => "object"
  | .bool _ => "boolean"
  | .num _ => "number"
  | .str _ => "string"
  | .arr _ => "object"
  | .obj _ => "object"
  | .func _ => "function"

/-- The JavaScript `=== null` test on the modelled values. -/
def isNullValue : JsValue → Bool
  | .null => true
  | _ => false

/-- JavaScript truthiness of the modelled values (`!v` is `!jsTruthy v`). -/
def jsTruthy : JsValue → Bool
  | .undef => false
  | .null => false
  | .bool b => b
  | .num n => n != 0
  | .str s => s != ""
  | .arr _ => true
  | .obj _ => true
  | .func _ => true

/-- A thrown JavaScript error, carrying its message. -/
structure JsError where
  message : String
deriving DecidableEq

/-- Modelled from the spec: `getErrorMessage` from `utils/utils.ts` is not
under `src/`.  The spec requires every reported failure to carry a non-empty
descriptive message, so the model returns the thrown error's message, falling
back to a placeholder when that message is empty. -/
def getErrorMessage (err : JsError) : String :=
  if err.message = "" then "unknown error" else err.message

mutual

/-- JSON documents, used to model the output of `JSON.stringify`. -/
inductive Json where
  | null : Json
  | bool (b : Bool) : Json
  | num (n : Int) : Json
  | str (s : String) : Json
  | arr (elems : JsonList) : Json
  | obj (fields : JsonFields) : Json

inductive JsonList where
  | nil : JsonList
  | cons (head : Json) (tail : JsonList) : JsonList

inductive JsonFields where
  | nil : JsonFields
  | cons (key : String) (val : Json) (tail : JsonFields) : JsonFields

end

/-- One hexadecimal digit, for JSON control-character escapes. -/
def hexDigit (n : Nat) : String :=
  if n < 10 then String.singleton (Char.ofNat (48 + n))
  else String.singleton (Char.ofNat (87 + n))

/-- JSON escaping of a single character, as `JSON.stringify` performs it. -/
def escapeJsonChar (c : Char) : String :=
  if c = '"' then "\\\""
  else if c = '\\' then "\\\\"
  else if c = '\n' then "\\n"
  else if c = '\r' then "\\r"
  else if c = '\t' then "\\t"
  else if c = '\x08' then "\\b"
  else if c = '\x0c' then "\\f"
  else if c.toNat < 32 then "\\u00" ++ hexDigit (c.toNat / 16) ++ hexDigit (c.toNat % 16)
  else String.singleton c

/-- A JSON string literal for `s`, quotes included. -/
def renderJsonString (s : String) : String :=
  "\"" ++ String.join (s.data.map escapeJsonChar) ++ "\""

mutual

/-- Rendering of a JSON document to its `JSON.stringify` text. -/
def Json.render : Json → String
  | .null => "null"
  | .bool b => if b then "true" else "false"
  | .num n => toString n
  | .str s => renderJsonString s
  | .arr xs => "[" ++ JsonList.render xs ++ "]"
  | .obj fs => "\x7b" ++ JsonFields.render fs ++ "\x7d"

def JsonList.render : JsonList → String
  | .nil => ""
  | .cons x .nil => x.render
  | .cons x (.cons y ys) => x.render ++ "," ++ JsonList.render (.cons y ys)

def JsonFields.render : JsonFields → String
  | .nil => ""
  | .cons k v .nil => renderJsonString k ++ ":" ++ v.render
  | .cons k v (.cons k2 v2 fs) =>
      renderJsonString k ++ ":" ++ v.render ++ "," ++ JsonFields.render (.cons k2 v2 fs)

end

mutual

/-- `JSON.stringify` conversion of a JS value to a JSON document: inside
objects, entries whose value is `undefined` or a function are dropped;
inside arrays they become `null`. -/
def jsValueToJson : JsValue → Json
  | .undef => .null
  | .null => .null
  | .bool b => .bool b
  | .num n => .num n
  | .str s => .str s
  | .arr xs => .arr (jsValueListToJson xs)
  | .obj fs => .obj (jsFieldListToJson fs)
  | .func _ => .null

def jsValueListToJson : JsValueList → JsonList
  | .nil => .nil
  | .cons x xs => .cons (jsValueToJson x) (jsValueListToJson xs)

def jsFieldListToJson : JsFieldList → JsonFields
  | .nil => .nil
  | .cons k v fs =>
      match v with
      | .undef => jsFieldListToJson fs
      | .func _ => jsFieldListToJson fs
      | _ => .cons k (jsValueToJson v) (jsFieldListToJson fs)

end

/-! ## Embedding of `js_config.ts` -/

/-- `JsConfigResult` from `js_config.ts`: one successfully loaded config. -/
structure JsConfigResult where
  path : String
  config : JsValue

/-- One entry of the `Failures` list: a path and its error message. -/
structure ConfigFailure where
  path : String
  error : String

/-- The outcome of dynamically importing one module path. -/
inductive ImportOutcome where
  | throws (err : JsError)
  | resolves (defaultExport : JsValue)

/-- The environment a `loadJsConfigs` call runs in: what each dynamic
dynamic import does, and whether an error is thrown outside the per-file handling
(`outerErr`), which the source's outer `try`/`catch` then captures. -/
structure ConfigEnv where
  imports : String → ImportOutcome
  outerErr : Option JsError

/-- A settled promise, as produced by `Promise.allSettled`. -/
inductive Settled where
  | fulfilled (value : JsConfigResult)
  | rejected (reason : JsError)

/-- Whether a settled promise is rejected (`result.status !== "fulfilled"`). -/
def Settled.isRejected : Settled → Bool
  | .rejected _ => true
  | .fulfilled _ => false

/-- The message `getErrorMessage(result.reason)` of a rejected promise. -/
def Settled.rejectionMessage : Settled → String
  | .rejected e => getErrorMessage e
  | .fulfilled _ => ""

/-- The value of a fulfilled promise (dummy on a rejected one). -/
def Settled.fulfilledValue : Settled → JsConfigResult
  | .fulfilled v => v
  | .rejected _ => ⟨"", JsValue.null⟩

/-- The async mapper inside `loadJsConfigs` (js_config.ts lines 36-48):
load the module, then require the default export to satisfy
`typeof config === "object" && config !== null`, else throw an error
whose message names the path. -/
def loadOneConfig (env : ConfigEnv) (path : String) : Settled :=
  match env.imports path with
  | .throws err => .rejected err
  | .resolves config =>
      if jsTypeof config != "object" || isNullValue config then
        .rejected ⟨"Config at " ++ path ++ " must export a default object"⟩
      else
        .fulfilled ⟨path, config⟩

/-- The result union `LoadJsConfigsResult` of `js_config.ts`. -/
inductive LoadJsConfigsResult where
  | success (configs : List JsConfigResult)
  | failures (errors : List ConfigFailure)
  | fatalError (message : String)

/-- The aggregation loop of `loadJsConfigs` (lines 54-65): walk the settled
results in order, pushing fulfilled values to `successes` and, for rejected
ones, pushing the input path at the same index with the reason's message to
`errors`. -/
def collectResults : List String → List Settled → List JsConfigResult × List ConfigFailure
  | _, [] => ([], [])
  | [], _ :: _ => ([], [])
  | p :: ps, r :: rs =>
      let rest := collectResults ps rs
      match r with
      | .fulfilled v => (v :: rest.1, rest.2)
      | .rejected e => (rest.1, ConfigFailure.mk p (getErrorMessage e) :: rest.2)

/-- `loadJsConfigs` (js_config.ts lines 33-74), before JSON serialization:
load every path, collect the settled results, and report `Failures` when any
error was recorded, `Success` otherwise; an error thrown outside the
per-file handling is caught by the outer `try`/`catch` and reported as the
single `Error` shape. -/
def loadJsConfigs (env : ConfigEnv) (paths : List String) : LoadJsConfigsResult :=
  match env.outerErr with
  | some err => .fatalError (getErrorMessage err)
  | none =>
      let results := paths.map (loadOneConfig env)
      let collected := collectResults paths results
      if collected.2.length > 0 then .failures collected.2
      else .success collected.1

/-- Serialization of one `{path, config}` success entry. -/
def configResultToJson (r : JsConfigResult) : Json :=
  .obj (.cons "path" (.str r.path) (.cons "config" (jsValueToJson r.config) .nil))

/-- Serialization of one `{path, error}` failure entry. -/
def configFailureToJson (f : ConfigFailure) : Json :=
  .obj (.cons "path" (.str f.path) (.cons "error" (.str f.error) .nil))

/-- A `JsonList` from a list of JSON documents. -/
def jsonListOf : List Json → JsonList
  | [] => .nil
  | x :: xs => .cons x (jsonListOf xs)

/-- The JSON document `JSONStringify` receives: a single-key object
discriminating the three result shapes. -/
def resultToJson : LoadJsConfigsResult → Json
  | .success l => .obj (.cons "Success" (.arr (jsonListOf (l.map configResultToJson))) .nil)
  | .failures l => .obj (.cons "Failures" (.arr (jsonListOf (l.map configFailureToJson))) .nil)
  | .fatalError m => .obj (.cons "Error" (.str m) .nil)

/-- The JSON text `loadJsConfigs` actually returns across the boundary. -/
def loadJsConfigsSerialized (env : ConfigEnv) (paths : List String) : String :=
  (resultToJson (loadJsConfigs env paths)).render

/-! ## Embedding of `cli.ts` -/

/-- Arguments of one `lintFile` call (cli.ts lines 98-111). -/
structure LintArgs where
  filePath : String
  bufferId : Nat
  buffer : Option (List Nat)
  ruleIds : List Nat
  optionsIds : List Nat
  settingsJSON : String
  globalsJSON : String
deriving DecidableEq

/-- The exports of `plugins/index.ts` that `cli.ts` destructures on its
first `loadPlugin` call.  The module itself is outside the embedded core,
so its functions are abstract parameters of the environment. -/
structure PluginsModule where
  loadPlugin : String → Option String → Bool → String
  setupRuleConfigs : String → Option String
  lintFile : LintArgs → Option String

/-- The exports of `workspace/index.ts` that `cli.ts` destructures on its
first `createWorkspace` call. -/
structure WorkspaceModule where
  createWorkspace : String → Unit
  destroyWorkspace : String → Unit

/-- The environment a bridge call runs in: what the two dynamic imports of
`cli.ts` resolve to. -/
structure BridgeEnv where
  pluginsModule : PluginsModule
  workspaceModule : WorkspaceModule

/-- The five module-level mutable bindings of `cli.ts` (lines 7-11), each
`null` until its subsystem's lazy load rebinds it. -/
structure BridgeState where
  loadPlugin : Option (String → Option String → Bool → String)
  setupRuleConfigs : Option (String → Option String)
  lintFile : Option (LintArgs → Option String)
  createWorkspace : Option (String → Unit)
  destroyWorkspace : Option (String → Unit)

/-- The initial state of the `cli.ts` module: every binding is `null`. -/
def initialBridgeState : BridgeState :=
  ⟨none, none, none, none, none⟩

/-- Observable events of one bridge call: a dynamic module import, a
delegated call to a bound subsystem function, or an assertion failure. -/
inductive BridgeEvent where
  | importPlugins
  | importWorkspace
  | callLoadPlugin (path : String) (pluginName : Option String) (pluginNameIsAlias : Bool)
  | callSetupRuleConfigs (optionsJSON : String)
  | callLintFile (args : LintArgs)
  | callCreateWorkspace (uri : String)
  | callDestroyWorkspace (uri : String)
  | assertionFailure
deriving DecidableEq

/-- Either a fatal assertion failure or a normal result. -/
inductive FatalOr (α : Type) where
  | fatal
  | ok (a : α)
deriving DecidableEq

/-- Modelled from the spec: `debugAssertIsNonNull` from `utils/asserts.ts`
is not under `src/`.  Per the spec, a precondition violation is diagnosed
via a fatal assertion failure, so the model is fatal exactly when the
checked binding is still `null`. -/
def debugAssertIsNonNull : Option α → FatalOr α
  | none => .fatal
  | some a => .ok a

/-- `loadPluginWrapper` (cli.ts lines 54-69): when `loadPlugin` is still
`null`, dynamically import `plugins/index.ts`, rebind `loadPlugin`,
`lintFile` and `setupRuleConfigs` to its exports, then call `loadPlugin`
with the original arguments; otherwise call the bound function directly.
Returns the new state, the events, and the call's result. -/
def loadPluginWrapper (env : BridgeEnv) (s : BridgeState)
    (path : String) (pluginName : Option String) (pluginNameIsAlias : Bool) :
    BridgeState × List BridgeEvent × String :=
  match s.loadPlugin with
  | none =>
      let mod := env.pluginsModule
      ({ s with
          loadPlugin := some mod.loadPlugin,
          lintFile := some mod.lintFile,
          setupRuleConfigs := some mod.setupRuleConfigs },
        [.importPlugins, .callLoadPlugin path pluginName pluginNameIsAlias],
        mod.loadPlugin path pluginName pluginNameIsAlias)
  | some f =>
      (s, [.callLoadPlugin path pluginName pluginNameIsAlias],
        f path pluginName pluginNameIsAlias)

/-- `createWorkspaceWrapper` (cli.ts lines 21-30): when `createWorkspace`
is still `null`, dynamically import `workspace/index.ts`, rebind
`createWorkspace` and `destroyWorkspace`, then call `createWorkspace` with
the original argument; otherwise call the bound function directly. -/
def createWorkspaceWrapper (env : BridgeEnv) (s : BridgeState) (uri : String) :
    BridgeState × List BridgeEvent :=
  match s.createWorkspace with
  | none =>
      let mod := env.workspaceModule
      ({ s with
          createWorkspace := some mod.createWorkspace,
          destroyWorkspace := some mod.destroyWorkspace },
        [.importWorkspace, .callCreateWorkspace uri])
  | some _ =>
      (s, [.callCreateWorkspace uri])

/-- `destroyWorkspaceWrapper` (cli.ts lines 39-42): assert the binding is
non-null, then delegate. -/
def destroyWorkspaceWrapper (s : BridgeState) (uri : String) :
    FatalOr (List BridgeEvent) :=
  match debugAssertIsNonNull s.destroyWorkspace with
  | .fatal => .fatal
  | .ok _ => .ok [.callDestroyWorkspace uri]

/-- `setupRuleConfigsWrapper` (cli.ts lines 79-82): assert the binding is
non-null, then delegate, returning `null` on success or an error string. -/
def setupRuleConfigsWrapper (s : BridgeState) (optionsJSON : String) :
    FatalOr (List BridgeEvent × Option String) :=
  match debugAssertIsNonNull s.setupRuleConfigs with
  | .fatal => .fatal
  | .ok f => .ok ([.callSetupRuleConfigs optionsJSON], f optionsJSON)

/-- `lintFileWrapper` (cli.ts lines 98-111): assert the binding is
non-null, then delegate. -/
def lintFileWrapper (s : BridgeState) (args : LintArgs) :
    FatalOr (List BridgeEvent × Option String) :=
  match debugAssertIsNonNull s.lintFile with
  | .fatal => .fatal
  | .ok f => .ok ([.callLintFile args], f args)

/-- One call arriving from the native side at the bridge. -/
inductive BridgeCall where
  | loadPlugin (path : String) (pluginName : Option String) (pluginNameIsAlias : Bool)
  | setupRuleConfigs (optionsJSON : String)
  | lintFile (args : LintArgs)
  | createWorkspace (uri : String)
  | destroyWorkspace (uri : String)
deriving DecidableEq

/-- Dispatch of one bridge call to its wrapper: the state after the call
and the events it emitted, or a fatal assertion failure. -/
def bridgeStep (env : BridgeEnv) (s : BridgeState) :
    BridgeCall → FatalOr (BridgeState × List BridgeEvent)
  | .loadPlugin p n a =>
      let r := loadPluginWrapper env s p n a
      .ok (r.1, r.2.1)
  | .setupRuleConfigs o =>
      match setupRuleConfigsWrapper s o with
      | .fatal => .fatal
      | .ok r => .ok (s, r.1)
  | .lintFile args =>
      match lintFileWrapper s args with
      | .fatal => .fatal
      | .ok r => .ok (s, r.1)
  | .createWorkspace uri =>
      let r := createWorkspaceWrapper env s uri
      .ok (r.1, r.2)
  | .destroyWorkspace uri =>
      match destroyWorkspaceWrapper s uri with
      | .fatal => .fatal
      | .ok ev => .ok (s, ev)

/-- A sequence of bridge calls, run in order; a fatal assertion failure
stops the process. -/
def bridgeRun (env : BridgeEnv) (s : BridgeState) :
    List BridgeCall → BridgeState × List BridgeEvent
  | [] => (s, [])
  | c :: cs =>
      match bridgeStep env s c with
      | .fatal => (s, [.assertionFailure])
      | .ok (s', ev) =>
          let rest := bridgeRun env s' cs
          (rest.1, ev ++ rest.2)

/-- Occurrences of one event in a trace. -/
def countEvent (e : BridgeEvent) : List BridgeEvent → Nat
  | [] => 0
  | x :: xs => (if x = e then 1 else 0) + countEvent e xs

/-! ## The buffer cache (spec-modelled) and the CLI exit code -/

/-- Modelled from the spec: the buffer cache inside `plugins/index.ts`
(not under `src/`): a process-wide mapping from `bufferId` to the raw byte
content most recently sent for that ID. -/
structure BufferCache where
  entries : List (Nat × List Nat)

/-- The cache with no entries. -/
def emptyBufferCache : BufferCache := ⟨[]⟩

/-- The content cached for an ID, when present. -/
def BufferCache.lookup (c : BufferCache) (id : Nat) : Option (List Nat) :=
  (c.entries.find? (fun e => e.1 = id)).map (fun e => e.2)

/-- Store (or overwrite) the content for an ID. -/
def BufferCache.store (c : BufferCache) (id : Nat) (content : List Nat) : BufferCache :=
  ⟨(id, content) :: c.entries.filter (fun e => e.1 ≠ id)⟩

/-- The content a lint call operates on, or an error result. -/
inductive LintContentOutcome where
  | linted (content : List Nat)
  | errorResult (message : String)
deriving DecidableEq

/-- Modelled from the spec: the buffer handling of `lintFile` in
`plugins/index.ts` (not under `src/`): a call supplying a buffer stores it
under `bufferId` and lints it; a call passing no buffer reuses whatever is
cached for `bufferId`, and is an error result (not a crash) when nothing
is cached for that ID. -/
def lintFileBuffer (c : BufferCache) (bufferId : Nat) (buffer : Option (List Nat)) :
    BufferCache × LintContentOutcome :=
  match buffer with
  | some content => (c.store bufferId content, .linted content)
  | none =>
      match c.lookup bufferId with
      | some content => (c, .linted content)
      | none => (c, .errorResult "No buffer cached for this ID")

/-- The top-level exit-code logic of `cli.ts` (lines 114-129): run `lint`,
and set `process.exitCode` to 1 exactly when the returned success value is
falsy; otherwise the exit code keeps its previous value. -/
def cliExitCode (success : JsValue) (prevExitCode : Nat) : Nat :=
  if !jsTruthy success then 1 else prevExitCode

/-! ## Concrete environments used to instantiate the theorems -/

/-- An environment in which every import resolves to an empty object. -/
def envAllObj : ConfigEnv := ⟨fun _ => ImportOutcome.resolves (.obj .nil), none⟩

/-- An environment in which every import throws `Error("boom")`. -/
def envAllThrow : ConfigEnv := ⟨fun _ => ImportOutcome.throws ⟨"boom"⟩, none⟩

/-- An environment in which every module's default export is `null`. -/
def envNullExport : ConfigEnv := ⟨fun _ => ImportOutcome.resolves .null, none⟩

/-- An environment in which an error is thrown outside the per-file
handling. -/
def envOuterThrow : ConfigEnv :=
  ⟨fun _ => ImportOutcome.resolves (.obj .nil), some ⟨"bad start"⟩⟩

/-- A concrete bridge environment. -/
def bridgeEnvW : BridgeEnv :=
  ⟨⟨fun _ _ _ => "loaded", fun _ => none, fun _ => none⟩, ⟨fun _ => (), fun _ => ()⟩⟩

/-- Concrete `lintFile` arguments. -/
def lintArgsW : LintArgs := ⟨"/f.ts", 1, none, [], [], "\x7b\x7d", "\x7b\x7d"⟩

/-- The bridge state after both subsystems of `bridgeEnvW` have loaded. -/
def boundStateW : BridgeState :=
  ⟨some bridgeEnvW.pluginsModule.loadPlugin,
   some bridgeEnvW.pluginsModule.setupRuleConfigs,
   some bridgeEnvW.pluginsModule.lintFile,
   some bridgeEnvW.workspaceModule.createWorkspace,
   some bridgeEnvW.workspaceModule.destroyWorkspace⟩

/-! ## Helper lemmas -/

lemma getErrorMessage_ne_empty (e : JsError) : getErrorMessage e ≠ "" := by
  unfold getErrorMessage
  split
  · decide
  · assumption

lemma Settled.rejectionMessage_ne_empty (s : Settled) (h : s.isRejected = true) :
    s.rejectionMessage ≠ "" := by
  cases s with
  | fulfilled v => simp [Settled.isRejected] at h
  | rejected e => exact getErrorMessage_ne_empty e

lemma loadOneConfig_path (env : ConfigEnv) (p : String) (v : JsConfigResult)
    (h : loadOneConfig env p = .fulfilled v) : v.path = p := by
  unfold loadOneConfig at h
  split at h
  · exact absurd h (by simp)
  · split at h
    · exact absurd h (by simp)
    · injection h with h1
      rw [← h1]

lemma collectResults_char (f : String → Settled) (paths : List String) :
    collectResults paths (paths.map f) =
      ((paths.filter fun p => !(f p).isRejected).map fun p => (f p).fulfilledValue,
       (paths.filter fun p => (f p).isRejected).map
         fun p => ConfigFailure.mk p ((f p).rejectionMessage)) := by
  induction paths with
  | nil => rfl
  | cons p ps ih =>
      simp only [List.map_cons, collectResults, ih]
      cases h : f p with
      | fulfilled v =>
          simp [h, Settled.isRejected, Settled.fulfilledValue, List.filter_cons]
      | rejected e =>
          simp [h, Settled.isRejected, Settled.rejectionMessage, List.filter_cons]

/-! ## Claims about the config loader -/

/-- C1: whenever at least one path fails to load or fails validation,
`loadJsConfigs` returns the `Failures` shape with an entry carrying a
non-empty error message for every failing path, and with no entry for any
path that succeeded in the same batch. -/
theorem loadJsConfigs_failures_aggregate (env : ConfigEnv) (paths : List String)
    (hok : env.outerErr = none)
    (hfail : ∃ p ∈ paths, (loadOneConfig env p).isRejected = true) :
    ∃ l, loadJsConfigs env paths = .failures l
      ∧ (∀ p ∈ paths, (loadOneConfig env p).isRejected = true →
          ∃ e, ConfigFailure.mk p e ∈ l ∧ e ≠ "")
      ∧ (∀ p ∈ paths, (loadOneConfig env p).isRejected = false →
          ∀ e, ConfigFailure.mk p e ∉ l) := by
  obtain ⟨p0, hp0, hr0⟩ := hfail
  refine ⟨(paths.filter fun p => (loadOneConfig env p).isRejected).map
      (fun p => ConfigFailure.mk p ((loadOneConfig env p).rejectionMessage)), ?_, ?_, ?_⟩
  · have hmem : p0 ∈ paths.filter fun p => (loadOneConfig env p).isRejected :=
      List.mem_filter.mpr ⟨hp0, hr0⟩
    have hlen : 0 < ((paths.filter fun p => (loadOneConfig env p).isRejected).map
        (fun p => ConfigFailure.mk p ((loadOneConfig env p).rejectionMessage))).length := by
      simp only [List.length_map]
      exact List.length_pos.mpr (List.ne_nil_of_mem hmem)
    unfold loadJsConfigs
    rw [hok]
    simp only [collectResults_char]
    rw [if_pos hlen]
  · intro p hp hr
    refine ⟨(loadOneConfig env p).rejectionMessage, ?_, Settled.rejectionMessage_ne_empty _ hr⟩
    exact List.mem_map_of_mem _ (List.mem_filter.mpr ⟨hp, hr⟩)
  · intro p hp hr e hmem
    obtain ⟨q, hq, heq⟩ := List.mem_map.mp hmem
    have hqr : (loadOneConfig env q).isRejected = true := (List.mem_filter.mp hq).2
    have : q = p := congrArg ConfigFailure.path heq
    rw [this] at hqr
    rw [hr] at hqr
    exact absurd hqr (by simp)

/-- Closed instance of C1: the batch `["/a", "/b"]` in which every import
throws `Error("boom")` reports `Failures` entries for both paths. -/
theorem loadJsConfigs_failures_aggregate_witness :
    envAllThrow.outerErr = none
  ∧ (∃ p ∈ ["/a", "/b"], (loadOneConfig envAllThrow p).isRejected = true)
  ∧ (∃ l, loadJsConfigs envAllThrow ["/a", "/b"] = .failures l
      ∧ (∀ p ∈ ["/a", "/b"], (loadOneConfig envAllThrow p).isRejected = true →
          ∃ e, ConfigFailure.mk p e ∈ l ∧ e ≠ "")
      ∧ (∀ p ∈ ["/a", "/b"], (loadOneConfig envAllThrow p).isRejected = false →
          ∀ e, ConfigFailure.mk p e ∉ l)) :=
  ⟨rfl, ⟨"/a", by simp, rfl⟩,
    loadJsConfigs_failures_aggregate envAllThrow ["/a", "/b"] rfl ⟨"/a", by simp, rfl⟩⟩

/-- C2: when every path loads successfully, `loadJsConfigs` returns the
`Success` shape with exactly one entry per input path, in input order, each
entry's path being the corresponding input path. -/
theorem loadJsConfigs_all_success (env : ConfigEnv) (paths : List String)
    (hok : env.outerErr = none)
    (hall : ∀ p ∈ paths, (loadOneConfig env p).isRejected = false) :
    ∃ l, loadJsConfigs env paths = .success l
      ∧ l.length = paths.length
      ∧ l.map JsConfigResult.path = paths := by
  have hfilterR : (paths.filter fun p => (loadOneConfig env p).isRejected) = [] := by
    rw [List.filter_eq_nil_iff]
    intro p hp
    simp [hall p hp]
  have hfilterS : (paths.filter fun p => !(loadOneConfig env p).isRejected) = paths := by
    rw [List.filter_eq_self]
    intro p hp
    simp [hall p hp]
  refine ⟨paths.map fun p => (loadOneConfig env p).fulfilledValue, ?_, by simp, ?_⟩
  · unfold loadJsConfigs
    rw [hok]
    simp only [collectResults_char, hfilterR, hfilterS]
    rfl
  · rw [List.map_map]
    have : ∀ p ∈ paths, (JsConfigResult.path ∘ fun p => (loadOneConfig env p).fulfilledValue) p
        = id p := by
      intro p hp
      have h := hall p hp
      cases hs : loadOneConfig env p with
      | fulfilled v =>
          simpa [Function.comp, hs, Settled.fulfilledValue] using loadOneConfig_path env p v hs
      | rejected e => rw [hs] at h; simp [Settled.isRejected] at h
    rw [List.map_congr_left this, List.map_id]

/-- Closed instance of C2: the batch `["/a", "/b"]` in which every import
resolves to an empty object yields `Success` with both paths in order. -/
theorem loadJsConfigs_all_success_witness :
    envAllObj.outerErr = none
  ∧ (∀ p ∈ ["/a", "/b"], (loadOneConfig envAllObj p).isRejected = false)
  ∧ (∃ l, loadJsConfigs envAllObj ["/a", "/b"] = .success l
      ∧ l.length = 2 ∧ l.map JsConfigResult.path = ["/a", "/b"]) :=
  ⟨rfl, by intro p hp; rfl,
    loadJsConfigs_all_success envAllObj ["/a", "/b"] rfl (by intro p hp; rfl)⟩

/-- C3: a module whose default export is `null`, a number, or a string is
recorded as a failure whose error message contains the path; a default
export that is an object (including the empty object) is recorded as a
success for that path. -/
theorem loadOneConfig_default_export_validation (env : ConfigEnv) (path : String)
    (v : JsValue) (h : env.imports path = .resolves v) :
    ((v = .null ∨ (∃ n, v = .num n) ∨ (∃ s, v = .str s)) →
        ∃ e, loadOneConfig env path = .rejected e
          ∧ ∃ pre post, getErrorMessage e = pre ++ (path ++ post))
  ∧ (∀ fs, v = .obj fs →
        loadOneConfig env path = .fulfilled ⟨path, .obj fs⟩) := by
  have hne : ("Config at " ++ path ++ " must export a default object") ≠ "" := by
    intro hcontr
    have hlen := congrArg String.length hcontr
    rw [String.length_append, String.length_append] at hlen
    have ha : ("Config at " : String).length = 10 := by decide
    have hb : (" must export a default object" : String).length = 29 := by decide
    have hc : ("" : String).length = 0 := by decide
    rw [ha, hb, hc] at hlen
    omega
  constructor
  · intro hbad
    have hcond : (jsTypeof v != "object" || isNullValue v) = true := by
      rcases hbad with h1 | ⟨n, h1⟩ | ⟨s, h1⟩ <;> subst h1 <;> rfl
    refine ⟨⟨"Config at " ++ path ++ " must export a default object"⟩, ?_,
      "Config at ", " must export a default object", ?_⟩
    · unfold loadOneConfig
      rw [h]
      simp only [hcond, if_true]
    · unfold getErrorMessage
      rw [if_neg hne, String.append_assoc]
  · intro fs h1
    subst h1
    unfold loadOneConfig
    rw [h]
    rfl

/-- Closed instance of C3: a `null` default export at `/a` is a failure
whose message contains `/a`; an empty-object default export is a success. -/
theorem loadOneConfig_default_export_validation_witness :
    envNullExport.imports "/a" = .resolves .null
  ∧ (∃ e, loadOneConfig envNullExport "/a" = .rejected e
      ∧ ∃ pre post, getErrorMessage e = pre ++ ("/a" ++ post))
  ∧ loadOneConfig envAllObj "/a" = .fulfilled ⟨"/a", .obj .nil⟩ :=
  ⟨rfl,
   (loadOneConfig_default_export_validation envNullExport "/a" .null rfl).1 (Or.inl rfl),
   (loadOneConfig_default_export_validation envAllObj "/a" (.obj .nil) rfl).2 .nil rfl⟩

/-- C4: `loadJsConfigs` always returns (never throws) a serialized object
with exactly one of the keys `Success`, `Failures`, `Error`; an error
thrown outside the per-file handling yields the single `Error` string
shape. -/
theorem loadJsConfigs_result_shape (env : ConfigEnv) (paths : List String) :
    (∃ key j, resultToJson (loadJsConfigs env paths) = .obj (.cons key j .nil)
        ∧ (key = "Success" ∨ key = "Failures" ∨ key = "Error"))
  ∧ (∀ err, env.outerErr = some err →
        loadJsConfigs env paths = .fatalError (getErrorMessage err)) := by
  constructor
  · cases hr : loadJsConfigs env paths with
    | success l => exact ⟨"Success", _, rfl, Or.inl rfl⟩
    | failures l => exact ⟨"Failures", _, rfl, Or.inr (Or.inl rfl)⟩
    | fatalError m => exact ⟨"Error", _, rfl, Or.inr (Or.inr rfl)⟩
  · intro err he
    unfold loadJsConfigs
    rw [he]

/-- Closed instance of C4: an error thrown outside the per-file handling
produces the single top-level `Error` shape. -/
theorem loadJsConfigs_result_shape_witness :
    envOuterThrow.outerErr = some ⟨"bad start"⟩
  ∧ loadJsConfigs envOuterThrow ["/a"] = .fatalError (getErrorMessage ⟨"bad start"⟩)
  ∧ getErrorMessage ⟨"bad start"⟩ = "bad start" :=
  ⟨rfl, (loadJsConfigs_result_shape envOuterThrow ["/a"]).2 ⟨"bad start"⟩ rfl, by decide⟩

/-- C9: `loadJsConfigs` on an empty paths array returns `Success` with an
empty list, serialized exactly as the text of an object whose only key is
`Success` mapped to an empty array. -/
theorem loadJsConfigs_empty_paths (env : ConfigEnv) (hok : env.outerErr = none) :
    loadJsConfigs env [] = .success []
  ∧ loadJsConfigsSerialized env [] = "\x7b\"Success\":[]\x7d" := by
  have h1 : loadJsConfigs env [] = .success [] := by
    unfold loadJsConfigs
    rw [hok]
    rfl
  refine ⟨h1, ?_⟩
  unfold loadJsConfigsSerialized
  rw [h1]
  rfl

/-- Closed instance of C9, in the environment where every import resolves
to an empty object. -/
theorem loadJsConfigs_empty_paths_witness :
    envAllObj.outerErr = none
  ∧ (loadJsConfigs envAllObj [] = .success []
      ∧ loadJsConfigsSerialized envAllObj [] = "\x7b\"Success\":[]\x7d") :=
  ⟨rfl, loadJsConfigs_empty_paths envAllObj rfl⟩

/-- C10: when `loadJsConfigs` returns `Failures`, the entries are exactly
the rejected input paths in input order, each entry's path field being the
input path at the corresponding position. -/
theorem loadJsConfigs_failures_order (env : ConfigEnv) (paths : List String)
    (l : List ConfigFailure) (h : loadJsConfigs env paths = .failures l) :
    l = (paths.filter fun p => (loadOneConfig env p).isRejected).map
        (fun p => ConfigFailure.mk p ((loadOneConfig env p).rejectionMessage))
  ∧ l.map ConfigFailure.path = paths.filter fun p => (loadOneConfig env p).isRejected := by
  cases ho : env.outerErr with
  | some err =>
      unfold loadJsConfigs at h
      rw [ho] at h
      exact absurd h (by simp)
  | none =>
      unfold loadJsConfigs at h
      rw [ho] at h
      simp only [collectResults_char] at h
      split at h
      · injection h with h1
        subst h1
        refine ⟨rfl, ?_⟩
        rw [List.map_map]
        have h2 : ∀ q ∈ (paths.filter fun p => (loadOneConfig env p).isRejected),
            (ConfigFailure.path ∘ fun p =>
              ConfigFailure.mk p ((loadOneConfig env p).rejectionMessage)) q = id q :=
          fun q _ => rfl
        rw [List.map_congr_left h2, List.map_id]
      · exact absurd h (by simp)

/-- Closed instance of C10: the single failing path `/a` is reported, in
order, with its own path. -/
theorem loadJsConfigs_failures_order_witness :
    loadJsConfigs envAllThrow ["/a"] = .failures [ConfigFailure.mk "/a" "boom"]
  ∧ ([ConfigFailure.mk "/a" "boom"]
        = (["/a"].filter fun p => (loadOneConfig envAllThrow p).isRejected).map
          (fun p => ConfigFailure.mk p ((loadOneConfig envAllThrow p).rejectionMessage))
      ∧ [ConfigFailure.mk "/a" "boom"].map ConfigFailure.path
        = ["/a"].filter fun p => (loadOneConfig envAllThrow p).isRejected) :=
  ⟨rfl, loadJsConfigs_failures_order envAllThrow ["/a"] [ConfigFailure.mk "/a" "boom"] rfl⟩

/-! ## Helper lemmas about the bridge state machine -/

lemma countEvent_append (e : BridgeEvent) (l1 l2 : List BridgeEvent) :
    countEvent e (l1 ++ l2) = countEvent e l1 + countEvent e l2 := by
  induction l1 with
  | nil => simp [countEvent]
  | cons x xs ih => simp [countEvent, ih, Nat.add_assoc]

lemma bridgeStep_import_inv (env : BridgeEnv) (s : BridgeState) (c : BridgeCall)
    (s' : BridgeState) (ev : List BridgeEvent)
    (h : bridgeStep env s c = .ok (s', ev)) :
    (s.loadPlugin.isSome = true →
        s'.loadPlugin.isSome = true ∧ countEvent .importPlugins ev = 0)
  ∧ countEvent .importPlugins ev ≤ 1
  ∧ (countEvent .importPlugins ev = 1 → s'.loadPlugin.isSome = true)
  ∧ (s.createWorkspace.isSome = true →
        s'.createWorkspace.isSome = true ∧ countEvent .importWorkspace ev = 0)
  ∧ countEvent .importWorkspace ev ≤ 1
  ∧ (countEvent .importWorkspace ev = 1 → s'.createWorkspace.isSome = true) := by
  cases c with
  | loadPlugin p n a =>
      cases hl : s.loadPlugin with
      | none =>
          simp only [bridgeStep, loadPluginWrapper, hl, FatalOr.ok.injEq, Prod.mk.injEq] at h
          obtain ⟨hs, hev⟩ := h
          subst hs
          subst hev
          refine ⟨?_, ?_, ?_, ?_, ?_, ?_⟩ <;> simp [countEvent, hl]
      | some f =>
          simp only [bridgeStep, loadPluginWrapper, hl, FatalOr.ok.injEq, Prod.mk.injEq] at h
          obtain ⟨hs, hev⟩ := h
          subst hs
          subst hev
          refine ⟨?_, ?_, ?_, ?_, ?_, ?_⟩ <;> simp [countEvent, hl]
  | setupRuleConfigs o =>
      cases hsc : s.setupRuleConfigs with
      | none =>
          simp [bridgeStep, setupRuleConfigsWrapper, debugAssertIsNonNull, hsc] at h
      | some f =>
          simp only [bridgeStep, setupRuleConfigsWrapper, debugAssertIsNonNull, hsc,
            FatalOr.ok.injEq, Prod.mk.injEq] at h
          obtain ⟨hs, hev⟩ := h
          subst hs
          subst hev
          refine ⟨?_, ?_, ?_, ?_, ?_, ?_⟩ <;> simp [countEvent]
  | lintFile args =>
      cases hlf : s.lintFile with
      | none =>
          simp [bridgeStep, lintFileWrapper, debugAssertIsNonNull, hlf] at h
      | some f =>
          simp only [bridgeStep, lintFileWrapper, debugAssertIsNonNull, hlf,
            FatalOr.ok.injEq, Prod.mk.injEq] at h
          obtain ⟨hs, hev⟩ := h
          subst hs
          subst hev
          refine ⟨?_, ?_, ?_, ?_, ?_, ?_⟩ <;> simp [countEvent]
  | createWorkspace uri =>
      cases hw : s.createWorkspace with
      | none =>
          simp only [bridgeStep, createWorkspaceWrapper, hw, FatalOr.ok.injEq,
            Prod.mk.injEq] at h
          obtain ⟨hs, hev⟩ := h
          subst hs
          subst hev
          refine ⟨?_, ?_, ?_, ?_, ?_, ?_⟩ <;> simp [countEvent, hw]
      | some f =>
          simp only [bridgeStep, createWorkspaceWrapper, hw, FatalOr.ok.injEq,
            Prod.mk.injEq] at h
          obtain ⟨hs, hev⟩ := h
          subst hs
          subst hev
          refine ⟨?_, ?_, ?_, ?_, ?_, ?_⟩ <;> simp [countEvent, hw]
  | destroyWorkspace uri =>
      cases hd : s.destroyWorkspace with
      | none =>
          simp [bridgeStep, destroyWorkspaceWrapper, debugAssertIsNonNull, hd] at h
      | some f =>
          simp only [bridgeStep, destroyWorkspaceWrapper, debugAssertIsNonNull, hd,
            FatalOr.ok.injEq, Prod.mk.injEq] at h
          obtain ⟨hs, hev⟩ := h
          subst hs
          subst hev
          refine ⟨?_, ?_, ?_, ?_, ?_, ?_⟩ <;> simp [countEvent]

lemma bridgeRun_import_count (env : BridgeEnv) :
    ∀ (cs : List BridgeCall) (s : BridgeState),
      (s.loadPlugin.isSome = true →
          countEvent .importPlugins (bridgeRun env s cs).2 = 0)
    ∧ countEvent .importPlugins (bridgeRun env s cs).2 ≤ 1
    ∧ (s.createWorkspace.isSome = true →
          countEvent .importWorkspace (bridgeRun env s cs).2 = 0)
    ∧ countEvent .importWorkspace (bridgeRun env s cs).2 ≤ 1 := by
  intro cs
  induction cs with
  | nil => intro s; simp [bridgeRun, countEvent]
  | cons c cs ih =>
      intro s
      cases hstep : bridgeStep env s c with
      | fatal => simp [bridgeRun, hstep, countEvent]
      | ok r =>
          obtain ⟨s', ev⟩ := r
          have hinv := bridgeStep_import_inv env s c s' ev hstep
          have hrest := ih s'
          simp only [bridgeRun, hstep, countEvent_append]
          refine ⟨?_, ?_, ?_, ?_⟩
          · intro hs
            obtain ⟨hs', hev0⟩ := hinv.1 hs
            have h0 := hrest.1 hs'
            omega
          · rcases Nat.eq_zero_or_pos (countEvent .importPlugins ev) with h0 | h1
            · have := hrest.2.1
              omega
            · have he1 : countEvent .importPlugins ev = 1 := by
                have := hinv.2.1
                omega
              have hs' := hinv.2.2.1 he1
              have h0 := hrest.1 hs'
              omega
          · intro hs
            obtain ⟨hs', hev0⟩ := hinv.2.2.2.1 hs
            have h0 := hrest.2.2.1 hs'
            omega
          · rcases Nat.eq_zero_or_pos (countEvent .importWorkspace ev) with h0 | h1
            · have := hrest.2.2.2
              omega
            · have he1 : countEvent .importWorkspace ev = 1 := by
                have := hinv.2.2.2.2.1
                omega
              have hs' := hinv.2.2.2.2.2 he1
              have h0 := hrest.2.2.1 hs'
              omega

lemma bridgeStep_preserves_plugin (env : BridgeEnv) (s : BridgeState) (c : BridgeCall)
    (s' : BridgeState) (ev : List BridgeEvent)
    (h : bridgeStep env s c = .ok (s', ev))
    (hnot : ∀ p n a, c ≠ BridgeCall.loadPlugin p n a) :
    s'.loadPlugin = s.loadPlugin ∧ s'.setupRuleConfigs = s.setupRuleConfigs
      ∧ s'.lintFile = s.lintFile := by
  cases c with
  | loadPlugin p n a => exact absurd rfl (hnot p n a)
  | setupRuleConfigs o =>
      cases hsc : s.setupRuleConfigs with
      | none => simp [bridgeStep, setupRuleConfigsWrapper, debugAssertIsNonNull, hsc] at h
      | some f =>
          simp only [bridgeStep, setupRuleConfigsWrapper, debugAssertIsNonNull, hsc,
            FatalOr.ok.injEq, Prod.mk.injEq] at h
          rw [← h.1]
          exact ⟨rfl, hsc, rfl⟩
  | lintFile args =>
      cases hlf : s.lintFile with
      | none => simp [bridgeStep, lintFileWrapper, debugAssertIsNonNull, hlf] at h
      | some f =>
          simp only [bridgeStep, lintFileWrapper, debugAssertIsNonNull, hlf,
            FatalOr.ok.injEq, Prod.mk.injEq] at h
          rw [← h.1]
          exact ⟨rfl, rfl, hlf⟩
  | createWorkspace uri =>
      cases hw : s.createWorkspace with
      | none =>
          simp only [bridgeStep, createWorkspaceWrapper, hw, FatalOr.ok.injEq,
            Prod.mk.injEq] at h
          rw [← h.1]
          exact ⟨rfl, rfl, rfl⟩
      | some f =>
          simp only [bridgeStep, createWorkspaceWrapper, hw, FatalOr.ok.injEq,
            Prod.mk.injEq] at h
          rw [← h.1]
          exact ⟨rfl, rfl, rfl⟩
  | destroyWorkspace uri =>
      cases hd : s.destroyWorkspace with
      | none => simp [bridgeStep, destroyWorkspaceWrapper, debugAssertIsNonNull, hd] at h
      | some f =>
          simp only [bridgeStep, destroyWorkspaceWrapper, debugAssertIsNonNull, hd,
            FatalOr.ok.injEq, Prod.mk.injEq] at h
          rw [← h.1]
          exact ⟨rfl, rfl, rfl⟩

lemma bridgeStep_preserves_workspace (env : BridgeEnv) (s : BridgeState) (c : BridgeCall)
    (s' : BridgeState) (ev : List BridgeEvent)
    (h : bridgeStep env s c = .ok (s', ev))
    (hnot : ∀ u, c ≠ BridgeCall.createWorkspace u) :
    s'.createWorkspace = s.createWorkspace
      ∧ s'.destroyWorkspace = s.destroyWorkspace := by
  cases c with
  | createWorkspace uri => exact absurd rfl (hnot uri)
  | loadPlugin p n a =>
      cases hl : s.loadPlugin with
      | none =>
          simp only [bridgeStep, loadPluginWrapper, hl, FatalOr.ok.injEq,
            Prod.mk.injEq] at h
          rw [← h.1]
          exact ⟨rfl, rfl⟩
      | some f =>
          simp only [bridgeStep, loadPluginWrapper, hl, FatalOr.ok.injEq,
            Prod.mk.injEq] at h
          rw [← h.1]
          exact ⟨rfl, rfl⟩
  | setupRuleConfigs o =>
      cases hsc : s.setupRuleConfigs with
      | none => simp [bridgeStep, setupRuleConfigsWrapper, debugAssertIsNonNull, hsc] at h
      | some f =>
          simp only [bridgeStep, setupRuleConfigsWrapper, debugAssertIsNonNull, hsc,
            FatalOr.ok.injEq, Prod.mk.injEq] at h
          rw [← h.1]
          exact ⟨rfl, rfl⟩
  | lintFile args =>
      cases hlf : s.lintFile with
      | none => simp [bridgeStep, lintFileWrapper, debugAssertIsNonNull, hlf] at h
      | some f =>
          simp only [bridgeStep, lintFileWrapper, debugAssertIsNonNull, hlf,
            FatalOr.ok.injEq, Prod.mk.injEq] at h
          rw [← h.1]
          exact ⟨rfl, rfl⟩
  | destroyWorkspace uri =>
      cases hd : s.destroyWorkspace with
      | none => simp [bridgeStep, destroyWorkspaceWrapper, debugAssertIsNonNull, hd] at h
      | some f =>
          simp only [bridgeStep, destroyWorkspaceWrapper, debugAssertIsNonNull, hd,
            FatalOr.ok.injEq, Prod.mk.injEq] at h
          rw [← h.1]
          exact ⟨rfl, hd⟩

lemma bridgeRun_no_loadPlugin (env : BridgeEnv) :
    ∀ (cs : List BridgeCall) (s : BridgeState),
      (∀ p n a, BridgeCall.loadPlugin p n a ∉ cs) →
      (bridgeRun env s cs).1.loadPlugin = s.loadPlugin
    ∧ (bridgeRun env s cs).1.setupRuleConfigs = s.setupRuleConfigs
    ∧ (bridgeRun env s cs).1.lintFile = s.lintFile := by
  intro cs
  induction cs with
  | nil => intro s h; exact ⟨rfl, rfl, rfl⟩
  | cons c cs ih =>
      intro s h
      have hc : ∀ p n a, c ≠ BridgeCall.loadPlugin p n a := by
        intro p n a hceq
        exact h p n a (hceq ▸ List.mem_cons_self c cs)
      have hcs : ∀ p n a, BridgeCall.loadPlugin p n a ∉ cs :=
        fun p n a hm => h p n a (List.mem_cons_of_mem _ hm)
      cases hstep : bridgeStep env s c with
      | fatal => simp [bridgeRun, hstep]
      | ok r =>
          obtain ⟨s', ev⟩ := r
          have hp := bridgeStep_preserves_plugin env s c s' ev hstep hc
          have hr := ih s' hcs
          simp only [bridgeRun, hstep]
          exact ⟨hr.1.trans hp.1, hr.2.1.trans hp.2.1, hr.2.2.trans hp.2.2⟩

lemma bridgeRun_no_createWorkspace (env : BridgeEnv) :
    ∀ (cs : List BridgeCall) (s : BridgeState),
      (∀ u, BridgeCall.createWorkspace u ∉ cs) →
      (bridgeRun env s cs).1.createWorkspace = s.createWorkspace
    ∧ (bridgeRun env s cs).1.destroyWorkspace = s.destroyWorkspace := by
  intro cs
  induction cs with
  | nil => intro s h; exact ⟨rfl, rfl⟩
  | cons c cs ih =>
      intro s h
      have hc : ∀ u, c ≠ BridgeCall.createWorkspace u := by
        intro u hceq
        exact h u (hceq ▸ List.mem_cons_self c cs)
      have hcs : ∀ u, BridgeCall.createWorkspace u ∉ cs :=
        fun u hm => h u (List.mem_cons_of_mem _ hm)
      cases hstep : bridgeStep env s c with
      | fatal => simp [bridgeRun, hstep]
      | ok r =>
          obtain ⟨s', ev⟩ := r
          have hp := bridgeStep_preserves_workspace env s c s' ev hstep hc
          have hr := ih s' hcs
          simp only [bridgeRun, hstep]
          exact ⟨hr.1.trans hp.1, hr.2.trans hp.2⟩

/-! ## Claims about the bridge -/

/-- C5: each lazy subsystem performs its dynamic load only when its
process-wide marker is unset (in which case the module's exports are
bound to the markers before the original call's arguments are passed on),
every later call skips the load and invokes the bound function directly,
and hence over any call sequence each subsystem is imported at most once. -/
theorem bridge_lazy_subsystem_init (env : BridgeEnv) (calls : List BridgeCall)
    (s : BridgeState) (path : String) (pluginName : Option String)
    (pluginNameIsAlias : Bool) (uri : String) :
    countEvent .importPlugins (bridgeRun env initialBridgeState calls).2 ≤ 1
  ∧ countEvent .importWorkspace (bridgeRun env initialBridgeState calls).2 ≤ 1
  ∧ (s.loadPlugin = none →
      loadPluginWrapper env s path pluginName pluginNameIsAlias =
        ({ s with loadPlugin := some env.pluginsModule.loadPlugin,
                  lintFile := some env.pluginsModule.lintFile,
                  setupRuleConfigs := some env.pluginsModule.setupRuleConfigs },
          [.importPlugins, .callLoadPlugin path pluginName pluginNameIsAlias],
          env.pluginsModule.loadPlugin path pluginName pluginNameIsAlias))
  ∧ (∀ f, s.loadPlugin = some f →
      loadPluginWrapper env s path pluginName pluginNameIsAlias =
        (s, [.callLoadPlugin path pluginName pluginNameIsAlias],
          f path pluginName pluginNameIsAlias))
  ∧ (s.createWorkspace = none →
      createWorkspaceWrapper env s uri =
        ({ s with createWorkspace := some env.workspaceModule.createWorkspace,
                  destroyWorkspace := some env.workspaceModule.destroyWorkspace },
          [.importWorkspace, .callCreateWorkspace uri]))
  ∧ (∀ g, s.createWorkspace = some g →
      createWorkspaceWrapper env s uri = (s, [.callCreateWorkspace uri])) := by
  refine ⟨(bridgeRun_import_count env calls initialBridgeState).2.1,
    (bridgeRun_import_count env calls initialBridgeState).2.2.2, ?_, ?_, ?_, ?_⟩
  · intro hl
    unfold loadPluginWrapper
    rw [hl]
  · intro f hl
    unfold loadPluginWrapper
    rw [hl]
  · intro hw
    unfold createWorkspaceWrapper
    rw [hw]
  · intro g hw
    unfold createWorkspaceWrapper
    rw [hw]

/-- Closed instance of C5: running two `loadPlugin` and two
`createWorkspace` calls from the initial state imports each subsystem at
most once, and the first `loadPlugin` call from the initial state binds
the module's exports before delegating. -/
theorem bridge_lazy_subsystem_init_witness :
    countEvent .importPlugins
      (bridgeRun bridgeEnvW initialBridgeState
        [.loadPlugin "/p" none false, .loadPlugin "/p" none false,
         .createWorkspace "u", .createWorkspace "u"]).2 ≤ 1
  ∧ loadPluginWrapper bridgeEnvW initialBridgeState "/p" none false =
      ({ initialBridgeState with
          loadPlugin := some bridgeEnvW.pluginsModule.loadPlugin,
          lintFile := some bridgeEnvW.pluginsModule.lintFile,
          setupRuleConfigs := some bridgeEnvW.pluginsModule.setupRuleConfigs },
        [.importPlugins, .callLoadPlugin "/p" none false],
        bridgeEnvW.pluginsModule.loadPlugin "/p" none false) :=
  ⟨(bridge_lazy_subsystem_init bridgeEnvW
      [.loadPlugin "/p" none false, .loadPlugin "/p" none false,
       .createWorkspace "u", .createWorkspace "u"]
      initialBridgeState "/p" none false "u").1,
   (bridge_lazy_subsystem_init bridgeEnvW [] initialBridgeState
      "/p" none false "u").2.2.1 rfl⟩

/-- C6: calling `destroyWorkspace` before any `createWorkspace` call, or
`setupRuleConfigs`/`lintFile` before any `loadPlugin` call, hits a fatal
assertion failure; once the subsystem is loaded the assertion never fires
and the wrapper delegates to the bound function. -/
theorem bridge_precondition_assertions (env : BridgeEnv) (cs : List BridgeCall)
    (uri optionsJSON : String) (args : LintArgs) (s : BridgeState) :
    ((∀ u, BridgeCall.createWorkspace u ∉ cs) →
        destroyWorkspaceWrapper (bridgeRun env initialBridgeState cs).1 uri = .fatal)
  ∧ ((∀ p n a, BridgeCall.loadPlugin p n a ∉ cs) →
        setupRuleConfigsWrapper (bridgeRun env initialBridgeState cs).1 optionsJSON
            = .fatal
      ∧ lintFileWrapper (bridgeRun env initialBridgeState cs).1 args = .fatal)
  ∧ (∀ f, s.destroyWorkspace = some f →
        destroyWorkspaceWrapper s uri = .ok [.callDestroyWorkspace uri])
  ∧ (∀ f, s.setupRuleConfigs = some f →
        setupRuleConfigsWrapper s optionsJSON
          = .ok ([.callSetupRuleConfigs optionsJSON], f optionsJSON))
  ∧ (∀ f, s.lintFile = some f →
        lintFileWrapper s args = .ok ([.callLintFile args], f args)) := by
  refine ⟨?_, ?_, ?_, ?_, ?_⟩
  · intro hno
    have hd := (bridgeRun_no_createWorkspace env cs initialBridgeState hno).2
    unfold destroyWorkspaceWrapper
    rw [hd]
    rfl
  · intro hno
    have hp := bridgeRun_no_loadPlugin env cs initialBridgeState hno
    constructor
    · unfold setupRuleConfigsWrapper
      rw [hp.2.1]
      rfl
    · unfold lintFileWrapper
      rw [hp.2.2]
      rfl
  · intro f hf
    unfold destroyWorkspaceWrapper
    rw [hf]
    rfl
  · intro f hf
    unfold setupRuleConfigsWrapper
    rw [hf]
    rfl
  · intro f hf
    unfold lintFileWrapper
    rw [hf]
    rfl

/-- Closed instance of C6: before any `createWorkspace`/`loadPlugin`
call, `destroyWorkspace` and `setupRuleConfigs` are fatal assertion
failures; with the subsystems loaded, `destroyWorkspace` delegates. -/
theorem bridge_precondition_assertions_witness :
    destroyWorkspaceWrapper (bridgeRun bridgeEnvW initialBridgeState []).1 "u" = .fatal
  ∧ setupRuleConfigsWrapper (bridgeRun bridgeEnvW initialBridgeState []).1 "[]" = .fatal
  ∧ destroyWorkspaceWrapper boundStateW "u" = .ok [.callDestroyWorkspace "u"] :=
  ⟨(bridge_precondition_assertions bridgeEnvW [] "u" "[]" lintArgsW boundStateW).1
      (by intro u; simp),
   ((bridge_precondition_assertions bridgeEnvW [] "u" "[]" lintArgsW boundStateW).2.1
      (by intro p n a; simp)).1,
   (bridge_precondition_assertions bridgeEnvW [] "u" "[]" lintArgsW boundStateW).2.2.1
      bridgeEnvW.workspaceModule.destroyWorkspace rfl⟩

/-- C7: a lint call that supplied buffer content `A` for a `bufferId`
makes a later call with no buffer for the same ID reuse `A`; a no-buffer
call for an ID never populated yields an error result, not a crash. -/
theorem lintFile_buffer_cache (c : BufferCache) (bufferId : Nat) (content : List Nat)
    (c2 : BufferCache) (id2 : Nat) (hmiss : c2.lookup id2 = none) :
    (lintFileBuffer (lintFileBuffer c bufferId (some content)).1 bufferId none).2
        = .linted content
  ∧ (lintFileBuffer c2 id2 none).2 = .errorResult "No buffer cached for this ID" := by
  constructor
  · have hlook : (BufferCache.store c bufferId content).lookup bufferId = some content := by
      unfold BufferCache.store BufferCache.lookup
      rw [List.find?_cons_of_pos]
      · rfl
      · simp
    simp [lintFileBuffer, hlook]
  · simp [lintFileBuffer, hmiss]

/-- Closed instance of C7: content `[104, 105]` stored under ID 1 is
reused by a no-buffer call for ID 1; a no-buffer call for the never
populated ID 2 is an error result. -/
theorem lintFile_buffer_cache_witness :
    emptyBufferCache.lookup 2 = none
  ∧ ((lintFileBuffer (lintFileBuffer emptyBufferCache 1 (some [104, 105])).1 1 none).2
        = .linted [104, 105]
      ∧ (lintFileBuffer emptyBufferCache 2 none).2
        = .errorResult "No buffer cached for this ID") :=
  ⟨rfl, lintFile_buffer_cache emptyBufferCache 1 [104, 105] emptyBufferCache 2 rfl⟩

/-- C8: the CLI entry point leaves the exit code untouched when `lint`
reports success, and sets it to 1 (hence non-zero) exactly when `lint`
returns a falsy success value. -/
theorem cli_exit_code (success : JsValue) :
    (cliExitCode success 0 ≠ 0 ↔ jsTruthy success = false)
  ∧ (jsTruthy success = true → ∀ prev, cliExitCode success prev = prev)
  ∧ (jsTruthy success = false → ∀ prev, cliExitCode success prev = 1) := by
  unfold cliExitCode
  cases h : jsTruthy success <;> simp [h]

/-- Closed instance of C8: a falsy success value sets exit code 1; a
truthy one leaves the previous exit code 5 unchanged. -/
theorem cli_exit_code_witness :
    jsTruthy (JsValue.bool false) = false
  ∧ cliExitCode (JsValue.bool false) 0 = 1
  ∧ cliExitCode (JsValue.bool true) 5 = 5 :=
  ⟨rfl, (cli_exit_code (JsValue.bool false)).2.2 rfl 0,
    (cli_exit_code (JsValue.bool true)).2.1 rfl 5⟩

end OxlintBridge
